import Mathlib

/-!
Verification of the chatbot backend (FastAPI + SQLite).

The SQLite-backed persistence layer (`database_sqlite.py`), the
authentication service (`auth_service.py`), the chat service
(`chat_service_sqlite.py`) and the `/chat` endpoint (`main_sqlite.py`) are
shallowly embedded: the database is a record of three tables (lists of
rows in insertion order, plus AUTOINCREMENT counters), each Python method
becomes a Lean function threading the state explicitly, and `None`-returning
failure paths become `Option`.

Two SQLite facts the embedding mirrors faithfully:
* `CHECK (role IN ('user', 'assistant'))` on `messages` is always enforced,
  so `save_message` with any other role raises, is caught, and returns `None`
  leaving the table unchanged;
* the declared `FOREIGN KEY` constraints are NOT enforced, because the code
  never issues `PRAGMA foreign_keys = ON` and Python's `sqlite3` leaves the
  SQLite default (OFF) in place; inserts with a dangling `conversation_id`
  succeed.

`CURRENT_TIMESTAMP` defaults are modelled by passing the current time to
each operation as an explicit `Nat` argument.
-/

namespace Chatbot

/-- A row of the `users` table (`database_sqlite.py` `create_users_table`). -/
structure UserRow where
  id : Nat
  username : String
  email : String
  password_hash : String
  created_at : Nat
deriving Repr, DecidableEq

/-- A row of the `conversations` table.  The code stores `str(current_user.id)`
into the INTEGER-affinity `user_id` column, which SQLite converts back to the
integer, so the owner is modelled as a `Nat`. -/
structure ConversationRow where
  id : Nat
  user_id : Nat
  created_at : Nat
deriving Repr, DecidableEq

/-- A row of the `messages` table. -/
structure MessageRow where
  id : Nat
  conversation_id : Nat
  role : String
  content : String
  created_at : Nat
deriving Repr, DecidableEq

/-- The SQLite database state: the three tables in insertion (rowid) order,
with the next AUTOINCREMENT id of each. -/
structure DBState where
  users : List UserRow
  conversations : List ConversationRow
  messages : List MessageRow
  nextUserId : Nat
  nextConvId : Nat
  nextMsgId : Nat
deriving Repr, DecidableEq

/-- A fresh database right after `create_tables`. -/
def initialState : DBState :=
  { users := [], conversations := [], messages := [],
    nextUserId := 1, nextConvId := 1, nextMsgId := 1 }

/-- SQLite's BINARY collation on TEXT values: lexicographic comparison of the
UTF-8 encodings, which coincides with lexicographic comparison of the
codepoint sequences. -/
def charListLt : List Char → List Char → Bool
  | [], [] => false
  | [], _ :: _ => true
  | _ :: _, [] => false
  | a :: as, b :: bs =>
    if a < b then true
    else if b < a then false
    else charListLt as bs

/-- Strict BINARY-collation order on strings. -/
def sqlStrLt (a b : String) : Bool := charListLt a.data b.data

/-- Reflexive BINARY-collation order on strings. -/
def sqlStrLe (a b : String) : Bool := ! sqlStrLt b a

/-- `SUBSTR(s, 1, n)` on a TEXT value: the first `n` characters of `s`
(all of `s` when it is shorter). -/
def sqlSubstr (s : String) (n : Nat) : String := String.mk (s.data.take n)

/-- One accumulation step of SQL `MIN` aggregation over TEXT values. -/
def sqlMinStep (acc : Option String) (c : String) : Option String :=
  match acc with
  | none => some c
  | some m => some (if sqlStrLt c m then c else m)

/-- SQL `MIN` over a collection of TEXT values (NULLs already dropped):
`none` on the empty collection, otherwise the least string in BINARY
collation order. -/
def sqlMinString (l : List String) : Option String :=
  l.foldl sqlMinStep none

/-- SQL `MAX` over a collection of INTEGER-like timestamps. -/
def sqlMaxNat (l : List Nat) : Option Nat :=
  l.foldl
    (fun acc n =>
      match acc with
      | none => some n
      | some m => some (max m n))
    none

/-- `DatabaseManager.save_message`: `INSERT INTO messages (conversation_id,
role, content) VALUES (?, ?, ?)`, returning `cursor.lastrowid`.  The CHECK
constraint on `role` makes the insert raise for any role outside
`{"user", "assistant"}`; the handler catches and returns `None`.  The foreign
key on `conversation_id` is not enforced (no `PRAGMA foreign_keys = ON`), so
the insert succeeds even when no such conversation exists. -/
def DBState.save_message (s : DBState) (conversation_id : Nat) (role : String)
    (content : String) (t : Nat) : Option Nat × DBState :=
  if role = "user" ∨ role = "assistant" then
    (some s.nextMsgId,
     { s with
        messages := s.messages ++
          [{ id := s.nextMsgId, conversation_id := conversation_id,
             role := role, content := content, created_at := t }],
        nextMsgId := s.nextMsgId + 1 })
  else
    (none, s)

/-- `DatabaseManager.create_conversation`: `INSERT INTO conversations
(user_id) VALUES (?)`, returning `cursor.lastrowid`.  The foreign key on
`user_id` is likewise unenforced, so the insert always succeeds. -/
def DBState.create_conversation (s : DBState) (user_id : Nat) (t : Nat) :
    Option Nat × DBState :=
  (some s.nextConvId,
   { s with
      conversations := s.conversations ++
        [{ id := s.nextConvId, user_id := user_id, created_at := t }],
      nextConvId := s.nextConvId + 1 })

/-- The comparison used by `ORDER BY created_at ASC` on message rows. -/
def msgTimeLe (a b : MessageRow) : Prop := a.created_at ≤ b.created_at

instance : DecidableRel msgTimeLe := fun a b => Nat.decLe a.created_at b.created_at

instance : IsTotal MessageRow msgTimeLe := ⟨fun a b => Nat.le_total a.created_at b.created_at⟩

instance : IsTrans MessageRow msgTimeLe := ⟨fun _ _ _ h h' => Nat.le_trans h h'⟩

/-- The row set produced by `DatabaseManager.get_conversation_history`'s query
before projection: `SELECT ... FROM messages WHERE conversation_id = ?
ORDER BY created_at ASC`.  Sorting is a stable insertion sort on `created_at`
(row order among equal timestamps is unspecified by SQLite; any sorted
arrangement is a faithful refinement). -/
def DBState.historyRows (s : DBState) (conversation_id : Nat) : List MessageRow :=
  List.insertionSort msgTimeLe
    (s.messages.filter (fun m => m.conversation_id = conversation_id))

/-- `DatabaseManager.get_conversation_history`: the `(role, content)` pairs of
the conversation's messages, ascending by `created_at`. -/
def DBState.get_conversation_history (s : DBState) (conversation_id : Nat) :
    List (String × String) :=
  (s.historyRows conversation_id).map (fun m => (m.role, m.content))

/-- One output row of `DatabaseManager.get_all_conversations`. -/
structure ConversationSummary where
  id : Nat
  user_id : Nat
  created_at : Nat
  message_count : Nat
  last_message_at : Option Nat
  preview : Option String
deriving Repr, DecidableEq

/-- The grouped row `get_all_conversations` computes for one conversation `c`:
`COUNT(m.id)`, `MAX(m.created_at)` and
`SUBSTR(MIN(CASE WHEN m.role = 'user' THEN m.content END), 1, 100)` over the
`LEFT JOIN`ed messages of `c`. -/
def DBState.convSummary (s : DBState) (c : ConversationRow) : ConversationSummary :=
  let ms := s.messages.filter (fun m => m.conversation_id = c.id)
  let userContents := (ms.filter (fun m => m.role = "user")).map (fun m => m.content)
  { id := c.id, user_id := c.user_id, created_at := c.created_at,
    message_count := ms.length,
    last_message_at := sqlMaxNat (ms.map (fun m => m.created_at)),
    preview := (sqlMinString userContents).map (fun p => sqlSubstr p 100) }

/-- `COALESCE(MAX(m.created_at), c.created_at)`, the activity key
`get_all_conversations` orders by (descending). -/
def DBState.activityKey (s : DBState) (c : ConversationRow) : Nat :=
  match sqlMaxNat ((s.messages.filter (fun m => m.conversation_id = c.id)).map
      (fun m => m.created_at)) with
  | some t => t
  | none => c.created_at

/-- The descending activity order of `get_all_conversations`. -/
def convActivityGe (s : DBState) (a b : ConversationRow) : Prop :=
  s.activityKey b ≤ s.activityKey a

instance (s : DBState) : DecidableRel (convActivityGe s) :=
  fun a b => Nat.decLe (s.activityKey b) (s.activityKey a)

/-- `DatabaseManager.get_all_conversations`: one summary row per conversation
owned by `user_id`, most recently active first. -/
def DBState.get_all_conversations (s : DBState) (user_id : Nat) :
    List ConversationSummary :=
  (List.insertionSort (convActivityGe s)
      (s.conversations.filter (fun c => c.user_id = user_id))).map s.convSummary

/-- `DatabaseManager.delete_conversation`: deletes the conversation's message
rows, then the conversation row, and returns `cursor.rowcount > 0` — where
`rowcount` reflects only the LAST executed statement, the conversation
delete. -/
def DBState.delete_conversation (s : DBState) (conversation_id : Nat) :
    Bool × DBState :=
  let convRowcount := (s.conversations.filter (fun c => c.id = conversation_id)).length
  (decide (0 < convRowcount),
   { s with
      messages := s.messages.filter (fun m => ¬ m.conversation_id = conversation_id),
      conversations := s.conversations.filter (fun c => ¬ c.id = conversation_id) })

/-- `DatabaseManager.create_user`: `INSERT INTO users (username, email,
password_hash) VALUES (?, ?, ?)`.  The UNIQUE constraints on `username` and
`email` are always enforced by SQLite; a violation raises, is caught, and
`None` is returned with the table unchanged. -/
def DBState.create_user (s : DBState) (username email password_hash : String)
    (t : Nat) : Option Nat × DBState :=
  if s.users.any (fun u => u.username = username ∨ u.email = email) then
    (none, s)
  else
    (some s.nextUserId,
     { s with
        users := s.users ++
          [{ id := s.nextUserId, username := username, email := email,
             password_hash := password_hash, created_at := t }],
        nextUserId := s.nextUserId + 1 })

/-- `DatabaseManager.get_user_by_username`: first row with that username. -/
def DBState.get_user_by_username (s : DBState) (username : String) : Option UserRow :=
  s.users.find? (fun u => u.username = username)

/-- `DatabaseManager.get_user_by_email`: first row with that email. -/
def DBState.get_user_by_email (s : DBState) (email : String) : Option UserRow :=
  s.users.find? (fun u => u.email = email)

/-! ### Authentication service (`auth_service.py`) -/

/-- The module-level `SECRET_KEY`. -/
def SECRET_KEY : String := "your-secret-key-change-this-in-production"

/-- The module-level `ACCESS_TOKEN_EXPIRE_MINUTES`. -/
def ACCESS_TOKEN_EXPIRE_MINUTES : Nat := 30

/-- The claim set a decoded JWT yields: the `sub` and `user_id` fields put in
at login (either may be missing from an attacker-minted token) plus the
absolute `exp` instant `create_access_token` adds. -/
structure JWTPayload where
  sub : Option String
  user_id : Option Nat
  exp : Nat
deriving Repr, DecidableEq

/-- A bearer token string as the `jose` library classifies it: either a
well-formed JWT whose payload was signed (HMAC-SHA-256) under some key, or a
string that does not parse as a JWT at all.  Forging a signed payload without
the key is outside the model (standard symbolic-crypto assumption). -/
inductive Token where
  | signed (payload : JWTPayload) (key : String)
  | malformed (raw : String)
deriving Repr, DecidableEq

/-- `jose.jwt.decode(token, key, algorithms=[ALGORITHM])`: raises `JWTError`
on malformed input or a signature under a different key, and
`ExpiredSignatureError` (a `JWTError`) when `exp < now`; otherwise returns the
payload.  Raising is modelled as `none`. -/
def jwtDecode (token : Token) (key : String) (now : Nat) : Option JWTPayload :=
  match token with
  | .malformed _ => none
  | .signed p k =>
    if k = key then
      if p.exp < now then none else some p
    else none

/-- `AuthService.create_access_token` with the default expiry window:
copies the claims and adds `exp = now + 30 minutes`, signed under
`SECRET_KEY`. -/
def create_access_token (sub : Option String) (user_id : Option Nat) (now : Nat) :
    Token :=
  .signed { sub := sub, user_id := user_id,
            exp := now + ACCESS_TOKEN_EXPIRE_MINUTES * 60 } SECRET_KEY

/-- `AuthService.verify_token`: decode under `SECRET_KEY`, `None` on any
`JWTError`. -/
def verify_token (token : Token) (now : Nat) : Option JWTPayload :=
  jwtDecode token SECRET_KEY now

/-- The `UserResponse` Pydantic model (no password hash). -/
structure UserResponse where
  id : Nat
  username : String
  email : String
  created_at : Nat
deriving Repr, DecidableEq

/-- Building a `UserResponse` from a stored user row, as
`AuthService.get_current_user` does. -/
def userToResponse (u : UserRow) : UserResponse :=
  { id := u.id, username := u.username, email := u.email, created_at := u.created_at }

/-- `AuthService.get_current_user`: verify the token, extract the `sub`
claim (`payload.get("sub")`; `if not username` also rejects the empty
string, Python falsiness), re-fetch the live user row by username, and
return its `UserResponse`; `None` at every failure point. -/
def get_current_user (token : Token) (now : Nat) (db : DBState) :
    Option UserResponse :=
  match verify_token token now with
  | none => none
  | some payload =>
    match payload.sub with
    | none => none
    | some username =>
      if username = "" then none
      else
        match db.get_user_by_username username with
        | none => none
        | some u => some (userToResponse u)

/-- The `UserCreate` Pydantic model. -/
structure UserCreate where
  username : String
  email : String
  password : String
deriving Repr, DecidableEq

/-- `AuthService.hash_password`.  bcrypt is an external library; it is
modelled as a deterministic tagging of the password.  No claim in this
development depends on any property of the hash beyond it being a string. -/
def hash_password (password : String) : String := "$2b$12$" ++ password

/-- `AuthService.register_user`: pre-check by username, then by email, then
`create_user` with the hashed password; `None` (and no state change) on any
failure. -/
def register_user (s : DBState) (u : UserCreate) (t : Nat) :
    Option UserResponse × DBState :=
  match s.get_user_by_username u.username with
  | some _ => (none, s)
  | none =>
    match s.get_user_by_email u.email with
    | some _ => (none, s)
    | none =>
      let hashed := hash_password u.password
      match s.create_user u.username u.email hashed t with
      | (some uid, s') =>
        (some { id := uid, username := u.username, email := u.email, created_at := t },
         s')
      | (none, s') => (none, s')

/-! ### Chat service (`chat_service_sqlite.py`) and the `/chat` endpoint -/

/-- The fixed apologetic reply `ChatService.generate_response` substitutes
when the generation call fails. -/
def APOLOGY : String := "I'm sorry, I encountered an error while processing your request."

/-- The system prompt prepended to every generation call. -/
def SYSTEM_PROMPT : String :=
  "You are a helpful assistant chatbot.\n            * using write equation using $$$$\n\n\n            "

/-- The outward generation call (`self.client.chat.completions.create` plus
the `response.choices[0].message.content` access): an opaque external
dependency, taken as a parameter mapping the formatted `(role, content)`
turns to either a reply or a raised exception (`Except.error`). -/
def GenerationCall : Type := List (String × String) → Except String String

/-- `ChatService.generate_response`: prepend the system turn, format the
history, call the provider; any exception is caught and replaced by the
fixed apology string. -/
def generate_response (call : GenerationCall) (messages : List (String × String)) :
    String :=
  match call (("system", SYSTEM_PROMPT) :: messages) with
  | .ok reply => reply
  | .error _ => APOLOGY

/-- The `ChatRequest` Pydantic model. -/
structure ChatRequest where
  message : String
  conversation_id : Option Nat
deriving Repr, DecidableEq

/-- The `ChatResponse` Pydantic model. -/
structure ChatResponse where
  response : String
  conversation_id : Nat
deriving Repr, DecidableEq

/-- An `HTTPException` surfaced by an endpoint. -/
structure HTTPError where
  status : Nat
  detail : String
deriving Repr, DecidableEq

/-- The `/chat` endpoint (`main_sqlite.py` `chat`), after the authentication
dependency has resolved `current_user`: create a conversation when
`request.conversation_id` is falsy (Python: `None` or `0`), save the user
message, fetch the full history, generate the reply, save it as the
assistant turn, and answer with the reply and conversation id.  A `None`
from `create_conversation` becomes a 500 (the endpoint's blanket
`except Exception` rewraps the inner `HTTPException`, so the caller sees
"Internal server error"). -/
def chatEndpoint (call : GenerationCall) (s : DBState) (req : ChatRequest)
    (user_id : Nat) (t : Nat) : Except HTTPError ChatResponse × DBState :=
  let createNew : Bool :=
    match req.conversation_id with
    | none => true
    | some cid => cid == 0
  let step1 : Option Nat × DBState :=
    if createNew then s.create_conversation user_id t
    else (req.conversation_id, s)
  match step1 with
  | (none, s1) => (.error { status := 500, detail := "Internal server error" }, s1)
  | (some conversation_id, s1) =>
    let s2 := (s1.save_message conversation_id "user" req.message t).2
    let history := s2.get_conversation_history conversation_id
    let ai_response := generate_response call history
    let s3 := (s2.save_message conversation_id "assistant" ai_response t).2
    (.ok { response := ai_response, conversation_id := conversation_id }, s3)

/-! ### Order facts about the BINARY collation and SQL MIN -/

theorem charListLt_irrefl : ∀ l : List Char, charListLt l l = false
  | [] => rfl
  | a :: as => by
    simp [charListLt, lt_irrefl a, charListLt_irrefl as]

theorem charListLt_trans : ∀ {a b c : List Char},
    charListLt a b = true → charListLt b c = true → charListLt a c = true
  | [], [], _, hab, _ => by simp [charListLt] at hab
  | _ :: _, [], _, hab, _ => by simp [charListLt] at hab
  | _, _ :: _, [], _, hbc => by simp [charListLt] at hbc
  | [], _ :: _, _ :: _, _, _ => by simp [charListLt]
  | a :: as, b :: bs, c :: cs, hab, hbc => by
    rw [charListLt] at hab hbc ⊢
    by_cases h1 : a < b
    · by_cases h2 : b < c
      · simp [lt_trans h1 h2]
      · rw [if_neg h2] at hbc
        by_cases h3 : c < b
        · rw [if_pos h3] at hbc
          exact absurd hbc (by simp)
        · have hbceq : b = c := le_antisymm (le_of_not_lt h3) (le_of_not_lt h2)
          subst hbceq
          simp [h1]
    · rw [if_neg h1] at hab
      by_cases h1' : b < a
      · rw [if_pos h1'] at hab
        exact absurd hab (by simp)
      · rw [if_neg h1'] at hab
        have habeq : a = b := le_antisymm (le_of_not_lt h1') (le_of_not_lt h1)
        subst habeq
        by_cases h2 : a < c
        · simp [h2]
        · rw [if_neg h2] at hbc ⊢
          by_cases h3 : c < a
          · rw [if_pos h3] at hbc
            exact absurd hbc (by simp)
          · rw [if_neg h3] at hbc ⊢
            exact charListLt_trans hab hbc

theorem charListLt_conn : ∀ {a b : List Char},
    charListLt a b = false → charListLt b a = false → a = b
  | [], [], _, _ => rfl
  | [], _ :: _, hab, _ => by simp [charListLt] at hab
  | _ :: _, [], _, hba => by simp [charListLt] at hba
  | a :: as, b :: bs, hab, hba => by
    rw [charListLt] at hab hba
    by_cases h1 : a < b
    · rw [if_pos h1] at hab
      exact absurd hab (by simp)
    · by_cases h2 : b < a
      · rw [if_pos h2] at hba
        exact absurd hba (by simp)
      · have habeq : a = b := le_antisymm (le_of_not_lt h2) (le_of_not_lt h1)
        subst habeq
        rw [if_neg h1, if_neg h1] at hab hba
        exact congrArg (a :: ·) (charListLt_conn hab hba)

theorem sqlStrLe_refl (a : String) : sqlStrLe a a = true := by
  simp [sqlStrLe, sqlStrLt, charListLt_irrefl]

/-- From `v ≤ c` and `c < a` conclude `v ≤ a`, in BINARY collation order. -/
theorem sqlStrLe_of_le_of_lt {v c a : String} (h1 : sqlStrLe v c = true)
    (h2 : sqlStrLt c a = true) : sqlStrLe v a = true := by
  simp only [sqlStrLe, sqlStrLt, Bool.not_eq_true', Bool.not_eq_eq_eq_not] at h1 ⊢
  by_cases hv : charListLt a.data v.data = true
  · exact absurd (charListLt_trans h2 hv) (by simp [h1])
  · simpa using hv

/-- From `v ≤ a` and `¬ c < a` conclude `v ≤ c`, in BINARY collation order. -/
theorem sqlStrLe_of_le_of_not_lt {v a c : String} (h1 : sqlStrLe v a = true)
    (h2 : sqlStrLt c a = false) : sqlStrLe v c = true := by
  simp only [sqlStrLe, sqlStrLt, Bool.not_eq_true'] at h1 ⊢
  by_cases hv : charListLt c.data v.data = true
  · by_cases h3 : charListLt a.data c.data = true
    · exact absurd (charListLt_trans h3 hv) (by simp [h1])
    · have hca : c.data = a.data := charListLt_conn h2 (by simpa using h3)
      rw [hca] at hv
      exact absurd hv (by simp [h1])
  · simpa using hv

/-- The SQL MIN fold, started from an accumulator `some a`, returns a least
element of `a :: l`. -/
theorem sqlMin_go : ∀ (l : List String) (a : String),
    ∃ v, l.foldl sqlMinStep (some a) = some v ∧ v ∈ a :: l ∧
      ∀ x ∈ a :: l, sqlStrLe v x = true
  | [], a => ⟨a, rfl, by simp, by simp [sqlStrLe_refl]⟩
  | c :: l, a => by
    have hstep : (c :: l).foldl sqlMinStep (some a) =
        l.foldl sqlMinStep (some (if sqlStrLt c a then c else a)) := rfl
    by_cases h : sqlStrLt c a = true
    · obtain ⟨v, hv, hmem, hle⟩ := sqlMin_go l c
      refine ⟨v, ?_, ?_, ?_⟩
      · rw [hstep, if_pos h]
        exact hv
      · rcases List.mem_cons.mp hmem with rfl | hmem'
        · exact List.mem_cons_of_mem _ (List.mem_cons_self _ _)
        · exact List.mem_cons_of_mem _ (List.mem_cons_of_mem _ hmem')
      · intro x hx
        rcases List.mem_cons.mp hx with rfl | hx'
        · exact sqlStrLe_of_le_of_lt (hle c (List.mem_cons_self _ _)) h
        · exact hle x hx'
    · obtain ⟨v, hv, hmem, hle⟩ := sqlMin_go l a
      refine ⟨v, ?_, ?_, ?_⟩
      · rw [hstep, if_neg h]
        exact hv
      · rcases List.mem_cons.mp hmem with rfl | hmem'
        · exact List.mem_cons_self _ _
        · exact List.mem_cons_of_mem _ (List.mem_cons_of_mem _ hmem')
      · intro x hx
        rcases List.mem_cons.mp hx with rfl | hx'
        · exact hle x (List.mem_cons_self _ _)
        · rcases List.mem_cons.mp hx' with rfl | hx''
          · exact sqlStrLe_of_le_of_not_lt (hle a (List.mem_cons_self _ _))
              (by simpa using h)
          · exact hle x (List.mem_cons_of_mem _ hx'')

theorem sqlMinString_eq_none {l : List String} : sqlMinString l = none ↔ l = [] := by
  cases l with
  | nil => simp [sqlMinString]
  | cons c l =>
    obtain ⟨v, hv, -, -⟩ := sqlMin_go l c
    have hfold : sqlMinString (c :: l) = some v := hv
    simp [hfold]

theorem sqlMinString_spec {l : List String} {v : String}
    (h : sqlMinString l = some v) : v ∈ l ∧ ∀ x ∈ l, sqlStrLe v x = true := by
  cases l with
  | nil => simp [sqlMinString] at h
  | cons c l =>
    obtain ⟨w, hw, hmem, hle⟩ := sqlMin_go l c
    have hfold : sqlMinString (c :: l) = some w := hw
    rw [hfold] at h
    cases Option.some.inj h
    exact ⟨hmem, hle⟩

/-! ### Example states, built through the embedded operations themselves -/

/-- A conversation (id 1) for user 7. -/
def exState0 : DBState := (initialState.create_conversation 7 0).2

/-- ... holding a user message "b" at time 1. -/
def exState1 : DBState := (exState0.save_message 1 "user" "b" 1).2

/-- ... and a later user message "a" at time 2. -/
def exState2 : DBState := (exState1.save_message 1 "user" "a" 2).2

/-- A reachable state holding a message whose conversation does not exist:
a fresh database after one `save_message` with a dangling conversation id. -/
def orphanState : DBState := (initialState.save_message 999 "user" "hi" 0).2

/-- A database whose only user has the empty string as username. -/
def emptyNameDB : DBState := (initialState.create_user "" "e@x.com" "h" 0).2

/-- A database with one user, alice. -/
def aliceDB : DBState := (initialState.create_user "alice" "a@x.com" "h" 3).2

/-- The preview the spec describes, stated from the spec's words for
comparison with the implementation: the content of the first user-authored
message of the conversation in creation order, truncated to 100
characters. -/
def specPreviewFirstUser (s : DBState) (conversation_id : Nat) : Option String :=
  (((s.historyRows conversation_id).filter (fun m => m.role = "user")).head?).map
    (fun m => sqlSubstr m.content 100)

/-! ### Claim theorems -/

/-- C2: the claimed invariant — every message row's `conversation_id`
references an existing conversation, and no operation sequence can create a
message whose conversation does not exist — is violated by the code.  The
schema declares the foreign key, but the code never enables SQLite
foreign-key enforcement, and the `/chat` endpoint passes the caller-supplied
`conversation_id` straight to `save_message`: on a fresh database a
`save_message` with conversation id 999 succeeds and creates an orphan
message row. -/
theorem save_message_creates_orphan :
    (initialState.save_message 999 "user" "hi" 0).1 = some 1
    ∧ orphanState.conversations = []
    ∧ ∃ m ∈ orphanState.messages, m.conversation_id = 999 := by decide

/-- C3 counterexample: `delete_conversation` does not return true whenever at
least one row was removed.  In the reachable state holding one orphan message
for conversation 999, deleting conversation 999 removes that message row (one
row removed) yet returns `false`, because the code inspects
`cursor.rowcount` after the second DELETE only. -/
theorem delete_conversation_rowcount_counterexample :
    orphanState.messages.length = 1
    ∧ (orphanState.delete_conversation 999).1 = false
    ∧ (orphanState.delete_conversation 999).2.messages.length = 0 := by decide

/-- C3 (amended): `delete_conversation` removes every message of the
conversation and the conversation record, leaves everything else, and returns
true iff the conversation record itself existed (message rows removed alone
do not count); for a non-existent conversation id it returns false, not an
error. -/
theorem delete_conversation_spec (s : DBState) (cid : Nat) :
    ((s.delete_conversation cid).1 = true ↔ ∃ c ∈ s.conversations, c.id = cid)
    ∧ (∀ m ∈ (s.delete_conversation cid).2.messages, m.conversation_id ≠ cid)
    ∧ (∀ c ∈ (s.delete_conversation cid).2.conversations, c.id ≠ cid)
    ∧ (∀ m ∈ s.messages, m.conversation_id ≠ cid →
        m ∈ (s.delete_conversation cid).2.messages)
    ∧ (∀ c ∈ s.conversations, c.id ≠ cid →
        c ∈ (s.delete_conversation cid).2.conversations) := by
  refine ⟨?_, ?_, ?_, ?_, ?_⟩
  · simp only [DBState.delete_conversation, decide_eq_true_eq]
    rw [List.length_pos]
    constructor
    · intro h
      obtain ⟨c, hc⟩ := List.exists_mem_of_ne_nil _ h
      exact ⟨c, (List.mem_filter.mp hc).1, by simpa using (List.mem_filter.mp hc).2⟩
    · rintro ⟨c, hc, hid⟩
      exact List.ne_nil_of_mem (List.mem_filter.mpr ⟨hc, by simpa using hid⟩)
  · intro m hm
    have := (List.mem_filter.mp hm).2
    simpa using this
  · intro c hc
    have := (List.mem_filter.mp hc).2
    simpa using this
  · intro m hm hne
    exact List.mem_filter.mpr ⟨hm, by simpa using hne⟩
  · intro c hc hne
    exact List.mem_filter.mpr ⟨hc, by simpa using hne⟩

/-- C3 witness: deleting the existing conversation 1 of `exState2` reports
true. -/
theorem delete_conversation_spec_witness :
    (exState2.delete_conversation 1).1 = true :=
  (delete_conversation_spec exState2 1).1.mpr
    ⟨{ id := 1, user_id := 7, created_at := 0 }, by decide, rfl⟩

/-- C5: `verify_token` fails closed — a malformed token, a token signed under
any key other than the server secret, or a token whose expiration lies in the
past all yield `None`, never a partial payload. -/
theorem verify_token_fails_closed (t : Token) (now : Nat)
    (h : (∃ raw, t = Token.malformed raw)
       ∨ (∃ p k, t = Token.signed p k ∧ k ≠ SECRET_KEY)
       ∨ (∃ p k, t = Token.signed p k ∧ p.exp < now)) :
    verify_token t now = none := by
  rcases h with ⟨raw, rfl⟩ | ⟨p, k, rfl, hk⟩ | ⟨p, k, rfl, hexp⟩
  · rfl
  · simp [verify_token, jwtDecode, hk]
  · by_cases hk : k = SECRET_KEY
    · subst hk
      simp [verify_token, jwtDecode, hexp]
    · simp [verify_token, jwtDecode, hk]

/-- C5 witness: a malformed token is rejected. -/
theorem verify_token_fails_closed_witness :
    verify_token (Token.malformed "garbage") 0 = none :=
  verify_token_fails_closed (Token.malformed "garbage") 0 (Or.inl ⟨"garbage", rfl⟩)

/-- C4 counterexample: the claim fails for a user whose username is the empty
string.  In `emptyNameDB` that user exists, the token below carries a valid
signature and an unexpired `exp` and its subject names that user, yet
`get_current_user` resolves it as unauthenticated, because the Python
truthiness check `if not username` rejects the empty string before the
lookup. -/
theorem get_current_user_empty_sub_counterexample :
    (emptyNameDB.get_user_by_username "").isSome = true
    ∧ get_current_user
        (Token.signed { sub := some "", user_id := some 1, exp := 100 } SECRET_KEY)
        50 emptyNameDB = none := by decide

/-- C4 (amended): for every token with a valid signature, unexpired claims
and a non-empty subject username, `get_current_user` re-fetches the live user
record by that username and returns it; when no such user exists in the
store (e.g. it was deleted) the same valid token resolves to `None`. -/
theorem get_current_user_resolves_live (db : DBState) (p : JWTPayload)
    (now : Nat) (name : String) (hsub : p.sub = some name) (hname : name ≠ "")
    (hexp : ¬ p.exp < now) :
    get_current_user (Token.signed p SECRET_KEY) now db =
      (db.get_user_by_username name).map userToResponse := by
  obtain ⟨psub, puid, pexp⟩ := p
  dsimp only at hsub hexp
  subst hsub
  have hv : verify_token (Token.signed ⟨some name, puid, pexp⟩ SECRET_KEY) now
      = some ⟨some name, puid, pexp⟩ := by
    simp [verify_token, jwtDecode, hexp]
  rw [get_current_user, hv]
  dsimp only
  rw [if_neg hname]
  cases h : db.get_user_by_username name <;> simp [h]

/-- C4 witness: a valid token for alice resolves to alice's live record. -/
theorem get_current_user_resolves_live_witness :
    get_current_user
        (Token.signed { sub := some "alice", user_id := some 1, exp := 100 } SECRET_KEY)
        50 aliceDB
      = some { id := 1, username := "alice", email := "a@x.com", created_at := 3 } :=
  (get_current_user_resolves_live aliceDB
      { sub := some "alice", user_id := some 1, exp := 100 } 50 "alice" rfl
      (by decide) (by decide)).trans (by decide)

/-- C10 counterexample: for a conversation id that does not exist in the
conversation store, `get_conversation_history` is not always empty — in the
reachable state with an orphan message for the non-existent conversation 999
(reachable because the foreign key is unenforced), the history of 999 is
non-empty. -/
theorem history_nonexistent_conversation_counterexample :
    orphanState.conversations = []
    ∧ orphanState.get_conversation_history 999 = [("user", "hi")] := by decide

/-- C10 (amended): for every conversation id that no stored message
references — in particular any non-existent conversation id on a database
satisfying the foreign-key invariant, and any existing conversation with no
messages — `get_conversation_history` returns the empty sequence rather than
an absent or error result. -/
theorem history_empty_when_unreferenced (s : DBState) (cid : Nat)
    (h : ∀ m ∈ s.messages, m.conversation_id ≠ cid) :
    s.get_conversation_history cid = [] := by
  have hfil : s.messages.filter (fun m => m.conversation_id = cid) = [] :=
    List.filter_eq_nil_iff.mpr (by intro m hm; simpa using h m hm)
  simp [DBState.get_conversation_history, DBState.historyRows, hfil]

/-- C10 witness: on a fresh database, conversation 42 has empty history. -/
theorem history_empty_when_unreferenced_witness :
    initialState.get_conversation_history 42 = [] :=
  history_empty_when_unreferenced initialState 42 (by intro m hm; simp [initialState] at hm)

/-- C7: `get_conversation_history` returns the conversation's
`(role, content)` pairs projected from rows ordered non-decreasingly by
creation time, and for a conversation with no messages it returns the empty
sequence, not an error. -/
theorem history_ordered (s : DBState) (cid : Nat) :
    (s.get_conversation_history cid =
        (s.historyRows cid).map (fun m => (m.role, m.content))
      ∧ List.Sorted msgTimeLe (s.historyRows cid))
    ∧ ((∀ m ∈ s.messages, m.conversation_id ≠ cid) →
        s.get_conversation_history cid = []) := by
  refine ⟨⟨rfl, ?_⟩, ?_⟩
  · exact List.sorted_insertionSort msgTimeLe
      (s.messages.filter (fun m => m.conversation_id = cid))
  · intro h
    have hfil : s.messages.filter (fun m => m.conversation_id = cid) = [] :=
      List.filter_eq_nil_iff.mpr (by intro m hm; simpa using h m hm)
    simp [DBState.get_conversation_history, DBState.historyRows, hfil]

/-- C7 witness: the empty-conversation clause at a concrete state. -/
theorem history_ordered_witness :
    initialState.get_conversation_history 1 = [] :=
  (history_ordered initialState 1).2 (by intro m hm; simp [initialState] at hm)

/-- C6: `save_message` with a role outside `{"user", "assistant"}` (e.g.
"moderator") fails with `None` and leaves the database unchanged; with role
"user" or "assistant" it succeeds, returning the new row id, and the message
is subsequently retrievable from the conversation's history. -/
theorem save_message_role_constraint (s : DBState) (cid : Nat)
    (content : String) (t : Nat) :
    (∀ role, ¬ (role = "user" ∨ role = "assistant") →
        s.save_message cid role content t = (none, s))
    ∧ (∀ role, role = "user" ∨ role = "assistant" →
        (s.save_message cid role content t).1 = some s.nextMsgId
        ∧ (role, content) ∈
            (s.save_message cid role content t).2.get_conversation_history cid) := by
  constructor
  · intro role h
    simp [DBState.save_message, h]
  · intro role h
    refine ⟨by simp [DBState.save_message, h], ?_⟩
    have hmem : MessageRow.mk s.nextMsgId cid role content t ∈
        ((s.save_message cid role content t).2.messages.filter
          (fun m => m.conversation_id = cid)) := by
      simp [DBState.save_message, h]
    have hrow : MessageRow.mk s.nextMsgId cid role content t ∈
        (s.save_message cid role content t).2.historyRows cid :=
      (List.mem_insertionSort msgTimeLe).mpr hmem
    exact List.mem_map.mpr ⟨MessageRow.mk s.nextMsgId cid role content t, hrow, rfl⟩

/-- C6 witness: "moderator" is rejected on a fresh database; "user"
succeeds with row id 1. -/
theorem save_message_role_constraint_witness :
    initialState.save_message 1 "moderator" "x" 0 = (none, initialState)
    ∧ (initialState.save_message 1 "user" "x" 0).1 = some 1 :=
  ⟨(save_message_role_constraint initialState 1 "x" 0).1 "moderator" (by decide),
   ((save_message_role_constraint initialState 1 "x" 0).2 "user" (Or.inl rfl)).1⟩

/-- The user-authored message contents of conversation `c`, the multiset the
`MIN(CASE WHEN m.role = 'user' THEN m.content END)` aggregate ranges over. -/
def userContentsOf (s : DBState) (c : ConversationRow) : List String :=
  ((s.messages.filter (fun m => m.conversation_id = c.id)).filter
    (fun m => m.role = "user")).map (fun m => m.content)

theorem convSummary_id (s : DBState) (c : ConversationRow) :
    (s.convSummary c).id = c.id := rfl

theorem convSummary_preview (s : DBState) (c : ConversationRow) :
    (s.convSummary c).preview =
      (sqlMinString (userContentsOf s c)).map (fun p => sqlSubstr p 100) := rfl

/-- C1 counterexample: in a conversation whose user messages are "b" (first,
time 1) then "a" (time 2), the summary's preview is "a" — the
lexicographically least user content — not the first user-authored message
"b" the claim derives it from. -/
theorem preview_not_first_user_message :
    ((exState2.get_all_conversations 7).map (fun r => r.preview) = [some "a"])
    ∧ specPreviewFirstUser exState2 1 = some "b"
    ∧ ((exState2.get_all_conversations 7).map (fun r => r.preview)
        ≠ [specPreviewFirstUser exState2 1]) := by decide

/-- C1 (amended): the preview field of each conversation summary returned by
`get_all_conversations` is derived from the least user-authored message
content of that conversation in BINARY collation order, truncated to 100
characters; it is absent exactly when the conversation has no user-authored
messages. -/
theorem preview_min_user_content (s : DBState) (uid : Nat)
    (row : ConversationSummary) (hrow : row ∈ s.get_all_conversations uid) :
    (row.preview = none ↔
      ∀ m ∈ s.messages, ¬ (m.conversation_id = row.id ∧ m.role = "user"))
    ∧ (∀ p, row.preview = some p →
        ∃ m ∈ s.messages, m.conversation_id = row.id ∧ m.role = "user" ∧
          p = sqlSubstr m.content 100 ∧
          ∀ m2 ∈ s.messages, m2.conversation_id = row.id → m2.role = "user" →
            sqlStrLe m.content m2.content = true) := by
  obtain ⟨c, hc, hrow⟩ := List.mem_map.mp hrow
  subst hrow
  rw [convSummary_preview, convSummary_id]
  constructor
  · constructor
    · intro h m hm hcon
      have hnone : sqlMinString (userContentsOf s c) = none := by
        cases hmin : sqlMinString (userContentsOf s c) with
        | none => rfl
        | some v => rw [hmin] at h; exact absurd h (by simp)
      have hnil := sqlMinString_eq_none.mp hnone
      have hmem : m.content ∈ userContentsOf s c :=
        List.mem_map.mpr ⟨m, List.mem_filter.mpr
          ⟨List.mem_filter.mpr ⟨hm, by simpa using hcon.1⟩, by simpa using hcon.2⟩, rfl⟩
      rw [hnil] at hmem
      simp at hmem
    · intro h
      have hnil : userContentsOf s c = [] := by
        cases hu : userContentsOf s c with
        | nil => rfl
        | cons x rest =>
          exfalso
          have hx : x ∈ userContentsOf s c := by
            rw [hu]
            exact List.mem_cons_self _ _
          obtain ⟨m, hm2, hmx⟩ := List.mem_map.mp hx
          have hm3 := List.mem_filter.mp hm2
          have hm4 := List.mem_filter.mp hm3.1
          exact h m hm4.1 ⟨by simpa using hm4.2, by simpa using hm3.2⟩
      rw [hnil]
      simp [sqlMinString]
  · intro p hp
    cases hmin : sqlMinString (userContentsOf s c) with
    | none => rw [hmin] at hp; exact absurd hp (by simp)
    | some v =>
      rw [hmin] at hp
      have hpv : sqlSubstr v 100 = p := by simpa using hp
      obtain ⟨hvmem, hvle⟩ := sqlMinString_spec hmin
      obtain ⟨m, hm2, hmv⟩ := List.mem_map.mp hvmem
      have hm3 := List.mem_filter.mp hm2
      have hm4 := List.mem_filter.mp hm3.1
      refine ⟨m, hm4.1, by simpa using hm4.2, by simpa using hm3.2, ?_, ?_⟩
      · rw [hmv, hpv]
      · intro m2 hm2mem hcid2 hrole2
        have hmem2 : m2.content ∈ userContentsOf s c :=
          List.mem_map.mpr ⟨m2, List.mem_filter.mpr
            ⟨List.mem_filter.mpr ⟨hm2mem, by simpa using hcid2⟩,
             by simpa using hrole2⟩, rfl⟩
        have hle2 := hvle _ hmem2
        rw [hmv]
        exact hle2

/-- C1 witness for the amended claim: at the two-message example state the
preview "a" is realised by a stored user message whose truncated content it
equals and which is least among the conversation's user contents. -/
theorem preview_min_user_content_witness :
    ∃ m ∈ exState2.messages, m.conversation_id = 1 ∧ m.role = "user" ∧
      "a" = sqlSubstr m.content 100 ∧
      ∀ m2 ∈ exState2.messages, m2.conversation_id = 1 → m2.role = "user" →
        sqlStrLe m.content m2.content = true :=
  (preview_min_user_content exState2 7
      (exState2.convSummary (ConversationRow.mk 1 7 0)) (by decide)).2 "a" (by decide)

/-- `register_user` reports a conflict (fails without state change) when the
username is already taken. -/
theorem register_user_username_conflict {s : DBState} {u : UserCreate} {t : Nat}
    (h : ∃ w ∈ s.users, w.username = u.username) :
    register_user s u t = (none, s) := by
  obtain ⟨w, hw, hname⟩ := h
  have hne : s.get_user_by_username u.username ≠ none := by
    intro hn
    rw [DBState.get_user_by_username, List.find?_eq_none] at hn
    exact hn w hw (by simpa using hname)
  cases hfind : s.get_user_by_username u.username with
  | none => exact absurd hfind hne
  | some w2 => simp [register_user, hfind]

/-- `register_user` reports a conflict when the email is already taken. -/
theorem register_user_email_conflict {s : DBState} {u : UserCreate} {t : Nat}
    (h : ∃ w ∈ s.users, w.email = u.email) :
    register_user s u t = (none, s) := by
  obtain ⟨w, hw, hmail⟩ := h
  cases hfind : s.get_user_by_username u.username with
  | some w2 => simp [register_user, hfind]
  | none =>
    have hne : s.get_user_by_email u.email ≠ none := by
      intro hn
      rw [DBState.get_user_by_email, List.find?_eq_none] at hn
      exact hn w hw (by simpa using hmail)
    cases hfind2 : s.get_user_by_email u.email with
    | none => exact absurd hfind2 hne
    | some w2 => simp [register_user, hfind, hfind2]

/-- `create_user` fails with `None` and no state change when the storage
rejects the write through a uniqueness violation. -/
theorem create_user_conflict {s : DBState} {n e ph : String} {t : Nat}
    (h : ∃ w ∈ s.users, w.username = n ∨ w.email = e) :
    s.create_user n e ph t = (none, s) := by
  obtain ⟨w, hw, hcon⟩ := h
  simp [DBState.create_user]
  exact ⟨w, hw, fun hn => hcon.resolve_left hn⟩

/-- A successful `create_user` stores a row carrying the new username and
email. -/
theorem create_user_success_mem {s : DBState} {n e ph : String} {t : Nat}
    {uid : Nat} {s2 : DBState} (h : s.create_user n e ph t = (some uid, s2)) :
    ∃ w ∈ s2.users, w.username = n ∧ w.email = e := by
  rw [DBState.create_user] at h
  by_cases hc : (s.users.any fun u => decide (u.username = n ∨ u.email = e)) = true
  · rw [if_pos hc] at h
    exact absurd (congrArg Prod.fst h) (by simp)
  · rw [if_neg hc] at h
    obtain rfl : s2 = _ := (congrArg Prod.snd h).symm
    exact ⟨UserRow.mk s.nextUserId n e ph t, by simp, rfl, rfl⟩

/-- A successful `register_user` stores a row with the registered username
and email. -/
theorem register_user_success_mem {s : DBState} {u : UserCreate} {t : Nat}
    (h : (register_user s u t).1 ≠ none) :
    ∃ w ∈ (register_user s u t).2.users, w.username = u.username ∧ w.email = u.email := by
  cases hfind : s.get_user_by_username u.username with
  | some w2 => exact absurd (by simp [register_user, hfind]) h
  | none =>
    cases hfind2 : s.get_user_by_email u.email with
    | some w2 => exact absurd (by simp [register_user, hfind, hfind2]) h
    | none =>
      cases hcr : s.create_user u.username u.email (hash_password u.password) t with
      | mk ro s2 =>
        cases ro with
        | none => exact absurd (by simp [register_user, hfind, hfind2, hcr]) h
        | some uid =>
          have h2 : (register_user s u t).2 = s2 := by
            simp [register_user, hfind, hfind2, hcr]
          rw [h2]
          exact create_user_success_mem hcr

/-- C8: registering a username or email already present reports a conflict
with no state change; `create_user` itself fails by returning `None` rather
than raising when the storage rejects the write; and after any successful
registration, a second registration with the same username, or with the same
email, fails. -/
theorem register_conflicts (s : DBState) (u : UserCreate) (t : Nat) :
    ((∃ w ∈ s.users, w.username = u.username) → register_user s u t = (none, s))
    ∧ ((∃ w ∈ s.users, w.email = u.email) → register_user s u t = (none, s))
    ∧ (∀ n e ph, (∃ w ∈ s.users, w.username = n ∨ w.email = e) →
        s.create_user n e ph t = (none, s))
    ∧ (∀ u2 t2, u2.username = u.username → (register_user s u t).1 ≠ none →
        (register_user (register_user s u t).2 u2 t2).1 = none)
    ∧ (∀ u2 t2, u2.email = u.email → (register_user s u t).1 ≠ none →
        (register_user (register_user s u t).2 u2 t2).1 = none) := by
  refine ⟨fun h => register_user_username_conflict h,
    fun h => register_user_email_conflict h,
    fun n e ph h => create_user_conflict h, ?_, ?_⟩
  · intro u2 t2 hname hsucc
    obtain ⟨w, hw, hwu, hwe⟩ := register_user_success_mem hsucc
    rw [register_user_username_conflict ⟨w, hw, hwu.trans hname.symm⟩]
  · intro u2 t2 hmail hsucc
    obtain ⟨w, hw, hwu, hwe⟩ := register_user_success_mem hsucc
    rw [register_user_email_conflict ⟨w, hw, hwe.trans hmail.symm⟩]

/-- C8 witness: registering "alice" again on a database already holding
alice reports a conflict and leaves the database unchanged. -/
theorem register_conflicts_witness :
    register_user aliceDB (UserCreate.mk "alice" "new@x.com" "pw") 9 = (none, aliceDB) :=
  (register_conflicts aliceDB (UserCreate.mk "alice" "new@x.com" "pw") 9).1
    ⟨UserRow.mk 1 "alice" "a@x.com" "h" 3, by decide, rfl⟩

/-- C9: when every generation call fails, the `/chat` endpoint still answers
with a 2xx-shaped body whose reply is the fixed apologetic message, and the
conversation receives a well-formed assistant turn carrying that message;
the failure is never surfaced to the caller as an error. -/
theorem chat_recovers_generation_failure (s : DBState) (req : ChatRequest)
    (uid t : Nat) (call : GenerationCall) (err : String)
    (hcall : ∀ msgs, call msgs = Except.error err) :
    ∃ cid,
      (chatEndpoint call s req uid t).1 =
        Except.ok (ChatResponse.mk APOLOGY cid)
      ∧ ∃ m ∈ (chatEndpoint call s req uid t).2.messages,
          m.conversation_id = cid ∧ m.role = "assistant" ∧ m.content = APOLOGY := by
  have hgen : ∀ msgs, generate_response call msgs = APOLOGY := by
    intro msgs
    simp [generate_response, hcall]
  rcases req with ⟨msg, cidOpt⟩
  cases cidOpt with
  | none =>
    refine ⟨s.nextConvId, ?_, ?_⟩
    · simp [chatEndpoint, DBState.create_conversation, DBState.save_message, hgen]
    · refine ⟨MessageRow.mk (((s.create_conversation uid t).2.save_message
          s.nextConvId "user" msg t).2.nextMsgId) s.nextConvId "assistant" APOLOGY t,
        ?_, rfl, rfl, rfl⟩
      simp [chatEndpoint, DBState.create_conversation, DBState.save_message, hgen]
  | some cid0 =>
    by_cases h0 : cid0 = 0
    · subst h0
      refine ⟨s.nextConvId, ?_, ?_⟩
      · simp [chatEndpoint, DBState.create_conversation, DBState.save_message, hgen]
      · refine ⟨MessageRow.mk (((s.create_conversation uid t).2.save_message
            s.nextConvId "user" msg t).2.nextMsgId) s.nextConvId "assistant" APOLOGY t,
          ?_, rfl, rfl, rfl⟩
        simp [chatEndpoint, DBState.create_conversation, DBState.save_message, hgen]
    · refine ⟨cid0, ?_, ?_⟩
      · simp [chatEndpoint, DBState.save_message, hgen, h0]
      · refine ⟨MessageRow.mk ((s.save_message cid0 "user" msg t).2.nextMsgId)
            cid0 "assistant" APOLOGY t, ?_, rfl, rfl, rfl⟩
        simp [chatEndpoint, DBState.save_message, hgen, h0]

/-- C9 witness: a concrete chat turn against an always-failing provider. -/
theorem chat_recovers_generation_failure_witness :
    ∃ cid,
      (chatEndpoint (fun _ => Except.error "boom") initialState
          (ChatRequest.mk "hello" none) 1 0).1 =
        Except.ok (ChatResponse.mk APOLOGY cid)
      ∧ ∃ m ∈ (chatEndpoint (fun _ => Except.error "boom") initialState
            (ChatRequest.mk "hello" none) 1 0).2.messages,
          m.conversation_id = cid ∧ m.role = "assistant" ∧ m.content = APOLOGY :=
  chat_recovers_generation_failure initialState (ChatRequest.mk "hello" none) 1 0
    (fun _ => Except.error "boom") "boom" (fun _ => rfl)

end Chatbot
